import Mathlib

/-
  Verification development for the OpenStock fundamentals aggregation core.

  Shallow embedding of:
  - src/lib/services/fundamentals.ts  (merge of supplemental metrics,
    fallback orchestration between the commercial Tiingo provider and the
    scraped Yahoo provider)
  - src/lib/yahoo/fundamentals.ts     (statement-derived metrics, invalid
    session classification and the retry-once policy, symbol handling)
  - src/lib/yahoo/session.ts          (session TTL cache and single-flight
    refresh)

  JavaScript optional numbers are modelled as Option ℚ (a JS number that is
  NaN / non-finite is coerced to undefined by the source's numberFrom helper
  before any of the modelled logic sees it, so Option ℚ is exact for every
  value the modelled code manipulates, except for the real-valued power in
  the CAGR formula, which is modelled with Real.rpow).
-/

namespace OpenStock

/-! ## JS metric values

A field of the FundamentalMetrics record of src/lib/services/fundamentals.ts
is either absent (undefined), null, a finite number, or one of the two
growth-history arrays.  The merge logic of mergeSupplementalMetrics branches
on exactly these cases (=== undefined, === null, === 0), so we model a field
value as this sum type. -/

inductive MetricValue where
  | undefined : MetricValue
  | null : MetricValue
  | num : ℚ → MetricValue
  | hist : List (String × ℚ) → MetricValue
deriving DecidableEq

namespace MetricValue

/-- The test `currentValue === undefined || currentValue === null ||
currentValue === 0` on line 286 of src/lib/services/fundamentals.ts. -/
def isGap : MetricValue → Bool
  | undefined => true
  | null => true
  | num q => q == 0
  | hist _ => false

/-- The test `supplementalValue !== undefined && supplementalValue !== null`
on lines 287-288 of src/lib/services/fundamentals.ts. -/
def isPresent : MetricValue → Bool
  | undefined => false
  | null => false
  | num _ => true
  | hist _ => true

end MetricValue

/-- The field names of the FundamentalMetrics interface
(src/lib/services/fundamentals.ts lines 17-48). -/
inductive MetricKey where
  | currentPrice | change | changePercent | trailingPE | forwardPE
  | payoutRatio | profitMargins | revenueGrowth | grossMargins
  | freeCashflow | operatingCashflow | totalRevenue | totalDebt | totalCash
  | currentRatio | quickRatio | marketCap | priceToBook | dividendYield
  | debtToEquity | returnOnEquity | returnOnAssets | earningsGrowth
  | roeActual | revenueCagr3Y | earningsCagr3Y | debtToEquityActual
  | freeCashflowPayoutRatio | revenueGrowthHistory | earningsGrowthHistory
deriving DecidableEq

/-- A FundamentalMetrics record, as the total assignment of a JS value
(possibly undefined) to every field name. -/
def Metrics : Type := MetricKey → MetricValue

/-- Functional update of one field of a metrics record (the effect of the
assignment `merged[key] = supplementalValue`). -/
def Metrics.set (m : Metrics) (k : MetricKey) (v : MetricValue) : Metrics :=
  fun k2 => if k2 = k then v else m k2

inductive DataSource where
  | tiingo | yahoo
deriving DecidableEq

/-- NormalizedFundamentals (src/lib/services/fundamentals.ts lines 6-15),
restricted to the fields the modelled logic reads or writes. -/
structure NormalizedFundamentals where
  symbol : String
  source : DataSource
  metrics : Metrics
  warnings : List String

/-- The fixed allow-list keysToSupplement of mergeSupplementalMetrics
(src/lib/services/fundamentals.ts lines 268-280). -/
def keysToSupplement : List MetricKey :=
  [ .dividendYield, .payoutRatio, .forwardPE, .earningsGrowth, .roeActual,
    .revenueCagr3Y, .earningsCagr3Y, .debtToEquityActual,
    .freeCashflowPayoutRatio, .revenueGrowthHistory, .earningsGrowthHistory ]

/-- The body of the for-loop of mergeSupplementalMetrics applied to one key
(src/lib/services/fundamentals.ts lines 282-292). -/
def mergeStep (supplemental : Metrics) (merged : Metrics) (k : MetricKey) : Metrics :=
  if (merged k).isGap && (supplemental k).isPresent then
    merged.set k (supplemental k)
  else
    merged

/-- mergeSupplementalMetrics restricted to the metrics record: start from a
copy of the primary metrics and run the for-loop over keysToSupplement
(src/lib/services/fundamentals.ts lines 262-292). -/
def mergeMetrics (primary supplemental : Metrics) : Metrics :=
  keysToSupplement.foldl (mergeStep supplemental) primary

/-- mergeSupplementalMetrics (src/lib/services/fundamentals.ts lines
262-304): merged metrics plus the concatenation of both warning lists, all
other fields taken from the primary result. -/
def mergeSupplementalMetrics (primary supplemental : NormalizedFundamentals) :
    NormalizedFundamentals :=
  { primary with
    metrics := mergeMetrics primary.metrics supplemental.metrics
    warnings := primary.warnings ++ supplemental.warnings }

/-! ## Fallback orchestration (fetchFundamentalsWithFallback)

Ticker symbols are modelled as lists of characters so that the character
level operations of the source (trim, toUpperCase, the dot replacement of
the scraped client) are exact and computable. -/

/-- String.prototype.trim: remove leading and trailing whitespace. -/
def trimChars (s : List Char) : List Char :=
  ((s.dropWhile Char.isWhitespace).reverse.dropWhile Char.isWhitespace).reverse

/-- String.prototype.toUpperCase, character-wise. -/
def toUpperChars (s : List Char) : List Char := s.map Char.toUpper

/-- The needsSupplement test of fetchFundamentalsWithFallback
(src/lib/services/fundamentals.ts lines 389-394).  Note that dividendYield
is compared against undefined, null and 0, while payoutRatio is compared
against undefined and null only. -/
def needsSupplement (t : NormalizedFundamentals) : Bool :=
  (t.metrics .dividendYield == .undefined) ||
  (t.metrics .dividendYield == .null) ||
  (t.metrics .dividendYield == .num 0) ||
  (t.metrics .payoutRatio == .undefined) ||
  (t.metrics .payoutRatio == .null)

/-- An error value raised by the orchestrator: either a plain Error carrying
a message, or an AggregateError carrying the collected underlying errors and
a message. -/
inductive FetchError where
  | simple : String → FetchError
  | aggregateErr : List FetchError → String → FetchError

/-- The outcomes of the two provider fetches for one orchestrator call:
what fetchFromTiingo and fetchYahooFundamentals would produce if invoked.
The orchestrator invokes each provider at most once per call. -/
structure ProviderOutcomes where
  tiingo : Except String NormalizedFundamentals
  yahoo : Except String NormalizedFundamentals

/-- Result of one fetchFundamentalsWithFallback call together with the
observable calls it made. -/
structure FallbackTrace where
  result : Except FetchError NormalizedFundamentals
  /-- how many times fetchYahooFundamentals was invoked -/
  yahooCalls : ℕ
  /-- whether the Yahoo call was made as a supplement to a successful
  commercial result (as opposed to the fallback path) -/
  supplementAttempted : Bool

/-- fetchFundamentalsWithFallback (src/lib/services/fundamentals.ts lines
375-440), with the two provider fetch outcomes supplied as an oracle.
Mirrors the source control flow: blank-symbol guard; commercial attempt;
needsSupplement check; supplement attempt whose failure is swallowed;
fallback attempt; error aggregation (the errors array holds the commercial
error and then the fallback error, so its length at the final throw is 2 and
the AggregateError branch is taken). -/
def fetchFundamentalsWithFallback (symbol : List Char) (o : ProviderOutcomes) :
    FallbackTrace :=
  let normalizedSymbol := toUpperChars (trimChars symbol)
  if normalizedSymbol = [] then
    { result := .error (.simple "Ticker symbol is required")
      yahooCalls := 0, supplementAttempted := false }
  else
    match o.tiingo with
    | .ok tiingoResult =>
        if needsSupplement tiingoResult then
          match o.yahoo with
          | .ok yahooSupplement =>
              let merged := mergeSupplementalMetrics tiingoResult yahooSupplement
              { result := .ok { merged with source := tiingoResult.source }
                yahooCalls := 1, supplementAttempted := true }
          | .error _ =>
              { result := .ok tiingoResult
                yahooCalls := 1, supplementAttempted := true }
        else
          { result := .ok tiingoResult
            yahooCalls := 0, supplementAttempted := false }
    | .error tiingoError =>
        match o.yahoo with
        | .ok yahooResult =>
            { result := .ok yahooResult
              yahooCalls := 1, supplementAttempted := false }
        | .error yahooError =>
            let errors : List FetchError :=
              [.simple tiingoError, .simple yahooError]
            if errors.length = 1 then
              { result := .error (.simple yahooError)
                yahooCalls := 1, supplementAttempted := false }
            else
              { result := .error (.aggregateErr errors
                  ("Failed to fetch fundamentals for " ++ String.mk normalizedSymbol))
                yahooCalls := 1, supplementAttempted := false }

/-! ## Yahoo quote-summary request: invalid-session classification and the
retry-once policy (src/lib/yahoo/fundamentals.ts) -/

/-- Whether the pattern is a prefix of the text. -/
def beginsWith : List Char → List Char → Bool
  | [], _ => true
  | _ :: _, [] => false
  | p :: ps, c :: cs => p == c && beginsWith ps cs

/-- Whether the pattern occurs as a contiguous substring of the text. -/
def containsPattern (pat : List Char) : List Char → Bool
  | [] => beginsWith pat []
  | c :: cs => beginsWith pat (c :: cs) || containsPattern pat cs

/-- The test of the regular expression invalid (crumb|cookie) with the
case-insensitive flag against a description string
(src/lib/yahoo/fundamentals.ts line 417 and line 470): the lowercased text
contains the substring "invalid crumb" or the substring "invalid cookie". -/
def matchesInvalidSessionText (s : List Char) : Bool :=
  containsPattern ("invalid crumb".data) (s.map Char.toLower) ||
  containsPattern ("invalid cookie".data) (s.map Char.toLower)

/-- The outcome of JSON.parse on a response body, as far as the modelled
code inspects it: unparseable, or parsed with the optional
quoteSummary.error.description string (absent error or absent description
both yield undefined, which the source defaults with ?? to the empty
string where needed). -/
inductive BodyParse where
  | unparseable : BodyParse
  | parsed : Option (List Char) → BodyParse

/-- An upstream HTTP response for the quote-summary request: the status
code, the parse outcome of its body text, and the fundamentals value that
parseQuoteSummary would produce from the parsed body when it is reached
(an error when the quoteSummary result array is missing or empty). -/
structure QuoteSummaryResponse where
  status : ℕ
  body : BodyParse
  parsedResult : Except String NormalizedFundamentals

/-- Response.ok of the fetch API: status in the range 200-299. -/
def responseOk (status : ℕ) : Bool := 200 ≤ status && status < 300

/-- shouldRetryWithNewSession (src/lib/yahoo/fundamentals.ts lines 410-421):
status 401 or 403, or a parseable JSON body whose error description
(defaulted to the empty string) matches the invalid-session text. -/
def shouldRetryWithNewSession (status : ℕ) (body : BodyParse) : Bool :=
  if status = 401 || status = 403 then
    true
  else
    match body with
    | .unparseable => false
    | .parsed desc => matchesInvalidSessionText (desc.getD [])

/-- The outcome of one performQuoteSummaryRequest call. -/
inductive QSOutcome where
  | ok : NormalizedFundamentals → QSOutcome
  | invalidSession : String → QSOutcome
  | otherFailure : String → QSOutcome

/-- performQuoteSummaryRequest response handling
(src/lib/yahoo/fundamentals.ts lines 449-474): a non-ok response is an
InvalidYahooSessionError when shouldRetryWithNewSession classifies it so,
otherwise a plain failure; an ok response whose body is not valid JSON is a
plain failure; an ok parsed response with a truthy error description
matching the invalid-session text is an InvalidYahooSessionError; otherwise
the parsed fundamentals (or the parseQuoteSummary failure) are returned. -/
def performQuoteSummaryRequest (resp : QuoteSummaryResponse) : QSOutcome :=
  if !responseOk resp.status then
    if shouldRetryWithNewSession resp.status resp.body then
      .invalidSession ("Yahoo session rejected with status " ++ toString resp.status)
    else
      .otherFailure "Yahoo fundamentals request failed"
  else
    match resp.body with
    | .unparseable => .otherFailure "Yahoo fundamentals response was not valid JSON"
    | .parsed desc =>
        if !(desc.getD []).isEmpty &&
            matchesInvalidSessionText (desc.getD []) then
          .invalidSession (String.mk (desc.getD []))
        else
          match resp.parsedResult with
          | .ok r => .ok r
          | .error e => .otherFailure e

/-- An error surfaced by fetchYahooFundamentals: the InvalidYahooSessionError
class or any other error. -/
inductive YahooFetchError where
  | invalidSessionErr : String → YahooFetchError
  | otherErr : String → YahooFetchError

/-- Result of one fetchYahooFundamentals call (on a cache miss) with the
observable upstream activity. -/
structure YahooFetchTrace where
  result : Except YahooFetchError NormalizedFundamentals
  /-- how many quote-summary requests were performed upstream -/
  requests : ℕ
  /-- how many invalidateYahooSession calls were made -/
  invalidations : ℕ
  /-- how many session acquisitions were made with forceRefresh = true -/
  forcedSessionRefreshes : ℕ

/-- Whether a session acquisition with the given forceRefresh flag counts as
a forced refresh. -/
def forcedCount (forceRefreshSession : Bool) : ℕ :=
  if forceRefreshSession then 1 else 0

/-- The try/catch retry skeleton of fetchYahooFundamentals on a cache miss
(src/lib/yahoo/fundamentals.ts lines 507-541): perform the quote-summary
request with the caller's forceRefresh flag; on InvalidYahooSessionError,
when the caller's flag was not already set, invalidate the session and
retry exactly once with a forced session refresh; any failure of the retry,
and any invalid-session failure under an already-forced flag, propagates.
The first and (on retry) second upstream responses are supplied as an
oracle. -/
def fetchYahooFundamentals (forceRefresh : Bool)
    (resp1 resp2 : QuoteSummaryResponse) : YahooFetchTrace :=
  match performQuoteSummaryRequest resp1 with
  | .ok r =>
      { result := .ok r, requests := 1, invalidations := 0
        forcedSessionRefreshes := forcedCount forceRefresh }
  | .otherFailure e =>
      { result := .error (.otherErr e), requests := 1, invalidations := 0
        forcedSessionRefreshes := forcedCount forceRefresh }
  | .invalidSession e =>
      if forceRefresh then
        { result := .error (.invalidSessionErr e), requests := 1
          invalidations := 0, forcedSessionRefreshes := forcedCount forceRefresh }
      else
        match performQuoteSummaryRequest resp2 with
        | .ok r =>
            { result := .ok r, requests := 2, invalidations := 1
              forcedSessionRefreshes := 1 }
        | .invalidSession e2 =>
            { result := .error (.invalidSessionErr e2), requests := 2
              invalidations := 1, forcedSessionRefreshes := 1 }
        | .otherFailure e2 =>
            { result := .error (.otherErr e2), requests := 2
              invalidations := 1, forcedSessionRefreshes := 1 }

/-! ## Symbol handling of the scraped provider
(src/lib/yahoo/fundamentals.ts lines 295-302 and 389-392).

Symbols are modelled as lists of characters, so that the character-wise
regex replacement of the source is exact. -/

/-- The replacement symbol.replace of every dot with a hyphen performed by
buildQuoteSummaryUrl before the symbol is placed in the request path
(src/lib/yahoo/fundamentals.ts line 297). -/
def requestPathSymbol (symbol : List Char) : List Char :=
  symbol.map (fun c => if c = '.' then '-' else c)

/-- The symbol field of the value returned by parseQuoteSummary
(src/lib/yahoo/fundamentals.ts lines 390-392): the payload's price.symbol
uppercased when present, else the requested symbol uppercased. -/
def parsedSymbolField (priceSymbol : Option (List Char))
    (requestedSymbol : List Char) : List Char :=
  match priceSymbol with
  | some s => toUpperChars s
  | none => toUpperChars requestedSymbol

/-! ## Statement-derived metrics (src/lib/yahoo/fundamentals.ts lines
118-288)

Raw provider statement entries are modelled after the source's pick
functions have run: every numeric field already went through numberFrom,
which coerces absent and non-finite JS numbers to undefined, so each field
is an Option ℚ.  The periodLabel is the value toPeriodLabel derives from
the endDate (an opaque year-month string as far as the modelled logic is
concerned; it is carried through, never inspected). -/

structure RawStatementEntry where
  endDate : Option ℚ
  periodLabel : Option String := none
  totalRevenue : Option ℚ := none
  netIncome : Option ℚ := none
  dividendsPaid : Option ℚ := none
  freeCashFlow : Option ℚ := none
deriving DecidableEq

/-- A StatementEntry after extraction (src/lib/yahoo/fundamentals.ts lines
118-127): the entries that survive the filter have a defined endDate. -/
structure StatementEntry where
  endDate : ℚ
  periodLabel : Option String := none
  totalRevenue : Option ℚ := none
  netIncome : Option ℚ := none
  dividendsPaid : Option ℚ := none
  freeCashFlow : Option ℚ := none
deriving DecidableEq

/-- Stable insertion into a list sorted descending by endDate: the new
entry goes before the first strictly smaller endDate, which reproduces the
stable sort of the source's comparator (b.endDate - a.endDate). -/
def insertByEndDateDesc (e : StatementEntry) :
    List StatementEntry → List StatementEntry
  | [] => [e]
  | y :: ys =>
      if e.endDate < y.endDate then y :: insertByEndDateDesc e ys
      else e :: y :: ys

/-- Stable sort descending by endDate. -/
def sortByEndDateDesc : List StatementEntry → List StatementEntry
  | [] => []
  | x :: xs => insertByEndDateDesc x (sortByEndDateDesc xs)

/-- extractStatementEntries (src/lib/yahoo/fundamentals.ts lines 137-155):
drop the entries without a usable endDate, keep the rest, and sort
descending by endDate. -/
def extractStatementEntries (rawEntries : List RawStatementEntry) :
    List StatementEntry :=
  sortByEndDateDesc (rawEntries.filterMap (fun r =>
    r.endDate.map (fun d =>
      { endDate := d, periodLabel := r.periodLabel
        totalRevenue := r.totalRevenue, netIncome := r.netIncome
        dividendsPaid := r.dividendsPaid, freeCashFlow := r.freeCashFlow })))

/-- 365 * 24 * 60 * 60, the number of seconds the source counts as one
year. -/
def yearSeconds : ℚ := 365 * 24 * 60 * 60

/-- cagr (src/lib/yahoo/fundamentals.ts lines 157-163).  A missing
endpoint (which reaches the source as NaN through the ?? NaN default and
fails its Number.isFinite test) is modelled as none.  The exponentiation
Math.pow is modelled with Real.rpow. -/
noncomputable def cagr (latest oldest : Option ℚ) (years : ℚ) : Option ℝ :=
  match latest, oldest with
  | some l, some o =>
      if l ≤ 0 ∨ o ≤ 0 then none
      else
        let span : ℝ := max 1 (years : ℝ)
        some (Real.rpow ((l : ℝ) / (o : ℝ)) (1 / span) - 1)
  | _, _ => none

/-- selectOlderEntry (src/lib/yahoo/fundamentals.ts lines 165-171). -/
def selectOlderEntry (entries : List StatementEntry) (periods : ℕ) :
    Option StatementEntry :=
  if entries.length ≤ 1 then none
  else entries.get? (min (entries.length - 1) periods)

/-- The years argument handed to cagr for the revenue and earnings CAGR
(src/lib/yahoo/fundamentals.ts lines 206 and 214): the end-date span in
seconds, floored at 1 second, divided by the seconds in a year. -/
def cagrYears (latestIncome olderIncome : StatementEntry) : ℚ :=
  max 1 (latestIncome.endDate - olderIncome.endDate) / yearSeconds

/-- The revenueCagr computation of computeStatementDerivedMetrics
(src/lib/yahoo/fundamentals.ts lines 200-208), over the extracted and
descending-sorted income history. -/
noncomputable def revenueCagrOf (incomeHistory : List StatementEntry) :
    Option ℝ :=
  match incomeHistory.head?, selectOlderEntry incomeHistory 3 with
  | some latestIncome, some olderIncome =>
      cagr latestIncome.totalRevenue olderIncome.totalRevenue
        (cagrYears latestIncome olderIncome)
  | _, _ => none

/-- The earningsCagr computation of computeStatementDerivedMetrics
(src/lib/yahoo/fundamentals.ts lines 210-216): the same formula applied to
the absolute values of net income. -/
noncomputable def earningsCagrOf (incomeHistory : List StatementEntry) :
    Option ℝ :=
  match incomeHistory.head?, selectOlderEntry incomeHistory 3 with
  | some latestIncome, some olderIncome =>
      cagr (latestIncome.netIncome.map (fun q => |q|))
        (olderIncome.netIncome.map (fun q => |q|))
        (cagrYears latestIncome olderIncome)
  | _, _ => none

/-- The freeCashflowPayoutRatio computation of
computeStatementDerivedMetrics (src/lib/yahoo/fundamentals.ts lines
235-239), over the extracted and descending-sorted cash-flow history.  The
JS truthiness tests require freeCashFlow to be present and nonzero (then
strictly positive) and dividendsPaid to be present and nonzero. -/
def freeCashflowPayoutRatioOf (cashflowHistory : List StatementEntry) :
    Option ℚ :=
  match cashflowHistory.head? with
  | none => none
  | some latestCashflow =>
      match latestCashflow.freeCashFlow, latestCashflow.dividendsPaid with
      | some f, some d =>
          if f ≠ 0 ∧ 0 < f ∧ d ≠ 0 then some (|d| / f) else none
      | _, _ => none

/-- One pass of the mapper inside the revenueGrowthHistory computation
(src/lib/yahoo/fundamentals.ts lines 243-256), recursing over the sliced
window so that the next older entry is looked up inside the window, like
arr[index + 1] in the source.  A none value is the NaN sentinel. -/
def revenueGrowthPoints (index : ℕ) :
    List StatementEntry → List (String × Option ℚ)
  | [] => []
  | entry :: rest =>
      let period := entry.periodLabel.getD ("period-" ++ toString index)
      let value : Option ℚ :=
        match rest.head? with
        | none => none
        | some next =>
            match next.totalRevenue, entry.totalRevenue with
            | some nr, some er =>
                if nr = 0 ∨ er = 0 ∨ er ≤ 0 then none
                else some (er / nr - 1)
            | _, _ => none
      (period, value) :: revenueGrowthPoints (index + 1) rest

/-- One pass of the mapper inside the earningsGrowthHistory computation
(src/lib/yahoo/fundamentals.ts lines 261-274). -/
def earningsGrowthPoints (index : ℕ) :
    List StatementEntry → List (String × Option ℚ)
  | [] => []
  | entry :: rest =>
      let period := entry.periodLabel.getD ("period-" ++ toString index)
      let value : Option ℚ :=
        match rest.head? with
        | none => none
        | some next =>
            match next.netIncome, entry.netIncome with
            | some ni, some ei =>
                if ni = 0 ∨ ei = 0 then none
                else some (ei / ni - 1)
            | _, _ => none
      (period, value) :: earningsGrowthPoints (index + 1) rest

/-- Drop the NaN sentinels, keeping only the finite growth values (the
Number.isFinite filter of src/lib/yahoo/fundamentals.ts lines 283-287). -/
def keepFiniteGrowth (points : List (String × Option ℚ)) :
    List (String × ℚ) :=
  points.filterMap (fun p => p.2.map (fun v => (p.1, v)))

/-- The revenueGrowthHistory field of computeStatementDerivedMetrics
(src/lib/yahoo/fundamentals.ts lines 241-257 and 283-284): undefined when
fewer than two income periods exist, otherwise the mapper applied to the
window of the four most recent periods, with the sentinels filtered out. -/
def revenueGrowthHistoryOf (incomeHistory : List StatementEntry) :
    Option (List (String × ℚ)) :=
  if 2 ≤ incomeHistory.length then
    some (keepFiniteGrowth (revenueGrowthPoints 0 (incomeHistory.take 4)))
  else none

/-- The earningsGrowthHistory field of computeStatementDerivedMetrics
(src/lib/yahoo/fundamentals.ts lines 259-275 and 285-286). -/
def earningsGrowthHistoryOf (incomeHistory : List StatementEntry) :
    Option (List (String × ℚ)) :=
  if 2 ≤ incomeHistory.length then
    some (keepFiniteGrowth (earningsGrowthPoints 0 (incomeHistory.take 4)))
  else none

/-! ## Session cache (src/lib/yahoo/session.ts)

Timestamps are integer milliseconds.  The external (Redis) cache layer is
disabled in this model (isCacheEnabled() = false), so the in-memory module
state is the only cache, exactly the fallback path of the source.  The
resolution of a refresh is modelled as one instant: the createdAt stamp
taken inside fetchYahooSession and the expiry stamp taken in the .then
callback are the same clock reading. -/

/-- SESSION_TTL_MS = 15 * 60 * 1000 (src/lib/yahoo/session.ts line 8). -/
def SESSION_TTL_MS : ℤ := 15 * 60 * 1000

structure YahooSession where
  cookieHeader : String
  crumb : String
  createdAt : ℤ
deriving DecidableEq

/-- The module-level in-memory cache of src/lib/yahoo/session.ts lines
19-20. -/
structure SessionState where
  cachedSession : Option YahooSession
  cachedSessionExpiresAt : ℤ
deriving DecidableEq

deriving instance DecidableEq for Except

/-- What one getYahooSession call did. -/
structure SessionCallResult where
  result : Except String YahooSession
  state : SessionState
  /-- whether a fetchYahooSession refresh was performed upstream -/
  fetched : Bool
deriving DecidableEq

/-- getYahooSession (src/lib/yahoo/session.ts lines 117-170) for a single
caller with no refresh already in flight: without forceRefresh, a cached
session still inside its expiry is returned unmodified; otherwise
fetchYahooSession runs, and on success the fresh session (stamped with the
current time) is stored with a new expiry; on failure the cache is left as
it was and the error propagates.  The upstream outcome (cookie header and
crumb) is supplied as an oracle. -/
def getYahooSession (forceRefresh : Bool) (st : SessionState) (now : ℤ)
    (fresh : Except String (String × String)) : SessionCallResult :=
  match st.cachedSession with
  | some s =>
      if ¬forceRefresh ∧ now < st.cachedSessionExpiresAt then
        { result := .ok s, state := st, fetched := false }
      else
        match fresh with
        | .ok (cookieHeader, crumb) =>
            let fresh : YahooSession :=
              { cookieHeader := cookieHeader, crumb := crumb, createdAt := now }
            { result := .ok fresh
              state := { cachedSession := some fresh
                         cachedSessionExpiresAt := now + SESSION_TTL_MS }
              fetched := true }
        | .error e => { result := .error e, state := st, fetched := true }
  | none =>
      match fresh with
      | .ok (cookieHeader, crumb) =>
          let fresh : YahooSession :=
            { cookieHeader := cookieHeader, crumb := crumb, createdAt := now }
          { result := .ok fresh
            state := { cachedSession := some fresh
                       cachedSessionExpiresAt := now + SESSION_TTL_MS }
            fetched := true }
      | .error e => { result := .error e, state := st, fetched := true }

/-- The invariant tying the stored expiry to the stored session: whenever a
session is cached, its expiry is its creation time plus the TTL. -/
def SessionState.WellFormed (st : SessionState) : Prop :=
  ∀ s, st.cachedSession = some s →
    st.cachedSessionExpiresAt = s.createdAt + SESSION_TTL_MS

/-! ## Single-flight refresh with two concurrent callers
(src/lib/yahoo/session.ts lines 137-158)

Node executes the synchronous prefix of each getYahooSession call (the
cache test and the test-and-set of the inFlightSession field) atomically;
suspension happens only at the await.  A schedule is a list of atomic
events: caller A or caller B starts its call (both without forceRefresh),
or the in-flight refresh resolves with an upstream outcome.  Events whose
precondition does not hold (a caller starting twice, a resolution with
nothing in flight) leave the state unchanged. -/

inductive CallerPhase where
  | idle
  | waiting
  | gotSession : Except String YahooSession → CallerPhase
deriving DecidableEq

structure ConcState where
  cached : Option YahooSession
  cachedExpiresAt : ℤ
  /-- whether inFlightSession is non-null -/
  inFlight : Bool
  /-- how many fetchYahooSession operations were started (each is one
  bootstrap request followed by one token request upstream) -/
  fetchesStarted : ℕ
  /-- how many of them have settled -/
  fetchesResolved : ℕ
  callerA : CallerPhase
  callerB : CallerPhase
deriving DecidableEq

inductive SchedEvent where
  /-- caller A runs the synchronous prefix of getYahooSession at the given
  time -/
  | startA : ℤ → SchedEvent
  | startB : ℤ → SchedEvent
  /-- the in-flight fetchYahooSession settles at the given time with the
  given upstream outcome -/
  | resolve : ℤ → Except String (String × String) → SchedEvent

/-- The synchronous prefix of getYahooSession for one caller: return the
cached session if it is still valid, else join the in-flight refresh if one
exists, else start a refresh and wait on it. -/
def startPhase (st : ConcState) (now : ℤ) : CallerPhase × Bool × ℕ :=
  match st.cached with
  | some s =>
      if now < st.cachedExpiresAt then (.gotSession (.ok s), st.inFlight, st.fetchesStarted)
      else if st.inFlight then (.waiting, true, st.fetchesStarted)
      else (.waiting, true, st.fetchesStarted + 1)
  | none =>
      if st.inFlight then (.waiting, true, st.fetchesStarted)
      else (.waiting, true, st.fetchesStarted + 1)

/-- One atomic event of the two-caller system. -/
def concStep (st : ConcState) : SchedEvent → ConcState
  | .startA now =>
      if st.callerA = .idle then
        let p := startPhase st now
        { st with callerA := p.1, inFlight := p.2.1, fetchesStarted := p.2.2 }
      else st
  | .startB now =>
      if st.callerB = .idle then
        let p := startPhase st now
        { st with callerB := p.1, inFlight := p.2.1, fetchesStarted := p.2.2 }
      else st
  | .resolve now outcome =>
      if st.inFlight then
        let res : Except String YahooSession :=
          match outcome with
          | .ok (cookieHeader, crumb) =>
              .ok { cookieHeader := cookieHeader, crumb := crumb, createdAt := now }
          | .error e => .error e
        { cached :=
            match outcome with
            | .ok (cookieHeader, crumb) =>
                some { cookieHeader := cookieHeader, crumb := crumb, createdAt := now }
            | .error _ => st.cached
          cachedExpiresAt :=
            match outcome with
            | .ok _ => now + SESSION_TTL_MS
            | .error _ => st.cachedExpiresAt
          inFlight := false
          fetchesStarted := st.fetchesStarted
          fetchesResolved := st.fetchesResolved + 1
          callerA := if st.callerA = .waiting then .gotSession res else st.callerA
          callerB := if st.callerB = .waiting then .gotSession res else st.callerB }
      else st

/-- Run a schedule of events from a state. -/
def concRun (st : ConcState) (events : List SchedEvent) : ConcState :=
  events.foldl concStep st

/-- The initial state of the single-flight scenario: no session cached, no
refresh in flight, both callers yet to start. -/
def concInit : ConcState :=
  { cached := none, cachedExpiresAt := 0, inFlight := false
    fetchesStarted := 0, fetchesResolved := 0
    callerA := .idle, callerB := .idle }

/-- The number of refresh operations currently in flight. -/
def ConcState.inFlightCount (st : ConcState) : ℕ :=
  st.fetchesStarted - st.fetchesResolved

/-! ## Supporting lemmas for the merge -/

theorem mergeStep_apply_ne (s m : Metrics) (a k : MetricKey) (h : k ≠ a) :
    mergeStep s m a k = m k := by
  unfold mergeStep
  split
  · simp [Metrics.set, h]
  · rfl

theorem mergeStep_apply_self (s m : Metrics) (a : MetricKey) :
    mergeStep s m a a =
      if (m a).isGap && (s a).isPresent then s a else m a := by
  unfold mergeStep
  by_cases hc : ((m a).isGap && (s a).isPresent) = true
  · simp [hc, Metrics.set]
  · simp [hc]

theorem foldl_mergeStep_not_mem (ks : List MetricKey) (s : Metrics) :
    ∀ (m : Metrics) (k : MetricKey), k ∉ ks →
      ks.foldl (mergeStep s) m k = m k := by
  induction ks with
  | nil => intro m k _; rfl
  | cons a as ih =>
      intro m k h
      have hka : k ≠ a := fun e => h (e ▸ List.mem_cons_self a as)
      have has : k ∉ as := fun hm => h (List.mem_cons_of_mem a hm)
      rw [List.foldl_cons, ih (mergeStep s m a) k has,
        mergeStep_apply_ne s m a k hka]

theorem foldl_mergeStep_mem (ks : List MetricKey) (s : Metrics) :
    ∀ (m : Metrics) (k : MetricKey), ks.Nodup → k ∈ ks →
      ks.foldl (mergeStep s) m k =
        if (m k).isGap && (s k).isPresent then s k else m k := by
  induction ks with
  | nil => intro m k _ hmem; cases hmem
  | cons a as ih =>
      intro m k hnd hmem
      rw [List.foldl_cons]
      rcases List.mem_cons.mp hmem with hk | hk
      · subst hk
        have hnot : k ∉ as := (List.nodup_cons.mp hnd).1
        rw [foldl_mergeStep_not_mem as s (mergeStep s m k) k hnot,
          mergeStep_apply_self]
      · have hnd2 : as.Nodup := (List.nodup_cons.mp hnd).2
        have hka : k ≠ a := by
          intro e; exact (List.nodup_cons.mp hnd).1 (e ▸ hk)
        rw [ih (mergeStep s m a) k hnd2 hk, mergeStep_apply_ne s m a k hka]

theorem isGap_iff (v : MetricValue) :
    v.isGap = true ↔ (v = .undefined ∨ v = .null ∨ v = .num 0) := by
  cases v <;> simp [MetricValue.isGap]

theorem isPresent_iff (v : MetricValue) :
    v.isPresent = true ↔ (v ≠ .undefined ∧ v ≠ .null) := by
  cases v <;> simp [MetricValue.isPresent]

/-! ## C1 -/

/-- C1.  For every primary and supplemental result and every field of the
fixed supplemental allow-list, the merge writes the supplemental value into
the merged result exactly when the primary value is undefined, null or
exactly 0 and the supplemental value is present (not undefined, not null);
in every other case the primary value is kept, so a present non-zero
primary metric is never overwritten. -/
theorem merge_fills_gaps_only (primary supplemental : NormalizedFundamentals)
    (k : MetricKey) (hk : k ∈ keysToSupplement) :
    (mergeSupplementalMetrics primary supplemental).metrics k =
      if (primary.metrics k = .undefined ∨ primary.metrics k = .null ∨
            primary.metrics k = .num 0) ∧
          (supplemental.metrics k ≠ .undefined ∧ supplemental.metrics k ≠ .null)
      then supplemental.metrics k
      else primary.metrics k := by
  have hnd : keysToSupplement.Nodup := by decide
  have h := foldl_mergeStep_mem keysToSupplement supplemental.metrics
    primary.metrics k hnd hk
  have hmetrics : (mergeSupplementalMetrics primary supplemental).metrics =
      mergeMetrics primary.metrics supplemental.metrics := rfl
  have hcond : ((primary.metrics k).isGap && (supplemental.metrics k).isPresent) = true ↔
      ((primary.metrics k = .undefined ∨ primary.metrics k = .null ∨
          primary.metrics k = .num 0) ∧
        (supplemental.metrics k ≠ .undefined ∧ supplemental.metrics k ≠ .null)) := by
    rw [Bool.and_eq_true, isGap_iff, isPresent_iff]
  rw [hmetrics]
  unfold mergeMetrics
  rw [h]
  by_cases hc : ((primary.metrics k = .undefined ∨ primary.metrics k = .null ∨
      primary.metrics k = .num 0) ∧
    (supplemental.metrics k ≠ .undefined ∧ supplemental.metrics k ≠ .null))
  · rw [if_pos hc, if_pos (hcond.mpr hc)]
  · rw [if_neg hc, if_neg (fun hb => hc (hcond.mp hb))]

/-- An example primary metrics record whose dividendYield is exactly 0. -/
def exMetricsDY0 : Metrics := fun k =>
  match k with
  | .dividendYield => .num 0
  | _ => .undefined

/-- An example primary metrics record whose dividendYield is 0.02. -/
def exMetricsDY02 : Metrics := fun k =>
  match k with
  | .dividendYield => .num (2 / 100)
  | _ => .undefined

/-- An example supplemental metrics record whose dividendYield is 0.03. -/
def exMetricsDY03 : Metrics := fun k =>
  match k with
  | .dividendYield => .num (3 / 100)
  | _ => .undefined

def exResult (m : Metrics) : NormalizedFundamentals :=
  { symbol := "AAPL", source := .tiingo, metrics := m, warnings := [] }

/-- Witness for C1: a primary dividendYield of 0 merged with a supplemental
0.03 yields 0.03, while a primary dividendYield of 0.02 is kept. -/
theorem merge_fills_gaps_only_witness :
    (mergeSupplementalMetrics (exResult exMetricsDY0)
        (exResult exMetricsDY03)).metrics .dividendYield = .num (3 / 100) ∧
    (mergeSupplementalMetrics (exResult exMetricsDY02)
        (exResult exMetricsDY03)).metrics .dividendYield = .num (2 / 100) := by
  constructor
  · have h := merge_fills_gaps_only (exResult exMetricsDY0)
      (exResult exMetricsDY03) .dividendYield (by decide)
    have hc : ((exResult exMetricsDY0).metrics .dividendYield = .undefined ∨
        (exResult exMetricsDY0).metrics .dividendYield = .null ∨
        (exResult exMetricsDY0).metrics .dividendYield = .num 0) ∧
        ((exResult exMetricsDY03).metrics .dividendYield ≠ .undefined ∧
          (exResult exMetricsDY03).metrics .dividendYield ≠ .null) := by
      refine ⟨Or.inr (Or.inr rfl), ?_, ?_⟩ <;> simp [exResult, exMetricsDY03]
    rw [h, if_pos hc]
    rfl
  · have h := merge_fills_gaps_only (exResult exMetricsDY02)
      (exResult exMetricsDY03) .dividendYield (by decide)
    have hc : ¬ (((exResult exMetricsDY02).metrics .dividendYield = .undefined ∨
        (exResult exMetricsDY02).metrics .dividendYield = .null ∨
        (exResult exMetricsDY02).metrics .dividendYield = .num 0) ∧
        ((exResult exMetricsDY03).metrics .dividendYield ≠ .undefined ∧
          (exResult exMetricsDY03).metrics .dividendYield ≠ .null)) := by
      rintro ⟨h1 | h1 | h1, -⟩
      · exact MetricValue.noConfusion h1
      · exact MetricValue.noConfusion h1
      · norm_num [exResult, exMetricsDY02] at h1
    rw [h, if_neg hc]
    rfl

/-! ## C2 and C3: orchestration -/

theorem needsSupplement_iff (t : NormalizedFundamentals) :
    needsSupplement t = true ↔
      (t.metrics .dividendYield = .undefined ∨ t.metrics .dividendYield = .null ∨
        t.metrics .dividendYield = .num 0 ∨
        t.metrics .payoutRatio = .undefined ∨ t.metrics .payoutRatio = .null) := by
  unfold needsSupplement
  simp [Bool.or_eq_true, beq_iff_eq, or_assoc]

theorem fallback_shape_tiingo_ok (symbol : List Char) (o : ProviderOutcomes)
    (t : NormalizedFundamentals)
    (hsym : toUpperChars (trimChars symbol) ≠ []) (ht : o.tiingo = .ok t) :
    fetchFundamentalsWithFallback symbol o =
      if needsSupplement t then
        match o.yahoo with
        | .ok y =>
            { result := .ok { mergeSupplementalMetrics t y with source := t.source }
              yahooCalls := 1, supplementAttempted := true }
        | .error _ =>
            { result := .ok t, yahooCalls := 1, supplementAttempted := true }
      else
        { result := .ok t, yahooCalls := 0, supplementAttempted := false } := by
  simp only [fetchFundamentalsWithFallback, ht]
  rw [if_neg hsym]

theorem fallback_shape_tiingo_error (symbol : List Char) (o : ProviderOutcomes)
    (te : String)
    (hsym : toUpperChars (trimChars symbol) ≠ []) (ht : o.tiingo = .error te) :
    fetchFundamentalsWithFallback symbol o =
      match o.yahoo with
      | .ok y =>
          { result := .ok y, yahooCalls := 1, supplementAttempted := false }
      | .error ye =>
          { result := .error (.aggregateErr [.simple te, .simple ye]
              ("Failed to fetch fundamentals for "
                ++ String.mk (toUpperChars (trimChars symbol))))
            yahooCalls := 1, supplementAttempted := false } := by
  simp only [fetchFundamentalsWithFallback, ht]
  rw [if_neg hsym]
  cases o.yahoo <;> simp

/-- C2 (amended).  After a successful commercial fetch of a result t, the
scraped supplement is attempted exactly when t's dividendYield is
undefined, null or zero, or t's payoutRatio is undefined or null (a
payoutRatio of exactly 0 does not by itself trigger the supplement); when
no supplement is needed the commercial result is returned as-is, with its
commercial source, and no scraped call is made. -/
theorem supplement_attempted_iff (symbol : List Char) (o : ProviderOutcomes)
    (t : NormalizedFundamentals)
    (hsym : toUpperChars (trimChars symbol) ≠ [])
    (ht : o.tiingo = .ok t) (hsrc : t.source = .tiingo) :
    ((fetchFundamentalsWithFallback symbol o).supplementAttempted = true ↔
      (t.metrics .dividendYield = .undefined ∨ t.metrics .dividendYield = .null ∨
        t.metrics .dividendYield = .num 0 ∨
        t.metrics .payoutRatio = .undefined ∨ t.metrics .payoutRatio = .null)) ∧
    ((fetchFundamentalsWithFallback symbol o).supplementAttempted = false →
      (fetchFundamentalsWithFallback symbol o).result = .ok t ∧
      (fetchFundamentalsWithFallback symbol o).yahooCalls = 0 ∧
      t.source = .tiingo) := by
  rw [fallback_shape_tiingo_ok symbol o t hsym ht]
  by_cases hn : needsSupplement t = true
  · rw [if_pos hn]
    refine ⟨?_, ?_⟩
    · cases hy : o.yahoo <;> simp [← needsSupplement_iff, hn]
    · cases hy : o.yahoo <;> simp
  · rw [if_neg hn]
    refine ⟨?_, fun _ => ⟨rfl, rfl, hsrc⟩⟩
    simp only [← needsSupplement_iff]
    simp [hn]

/-- A commercial result whose dividendYield is present and nonzero while
its payoutRatio is exactly 0. -/
def exTiingoPR0 : NormalizedFundamentals :=
  { symbol := "KO", source := .tiingo
    metrics := fun k =>
      match k with
      | .dividendYield => .num 2
      | .payoutRatio => .num 0
      | _ => .undefined
    warnings := [] }

def exOutcomesPR0 : ProviderOutcomes :=
  { tiingo := .ok exTiingoPR0, yahoo := .ok (exResult exMetricsDY03) }

/-- Counterexample to C2 as stated: the claim classifies a commercial
result with payoutRatio exactly 0 (and a present nonzero dividendYield) as
needing the supplement, but the code makes no supplement call for it: the
payoutRatio branch of needsSupplement tests only undefined and null, not
zero. -/
theorem supplement_zero_payout_counterexample :
    exTiingoPR0.metrics .payoutRatio = .num 0 ∧
    (fetchFundamentalsWithFallback ['K', 'O'] exOutcomesPR0).supplementAttempted
      = false ∧
    (fetchFundamentalsWithFallback ['K', 'O'] exOutcomesPR0).yahooCalls = 0 := by
  refine ⟨rfl, ?_, ?_⟩ <;> rfl

/-- Witness for C2: with a commercial result t0 whose dividendYield is
undefined, the supplement is attempted. -/
theorem supplement_attempted_iff_witness :
    (fetchFundamentalsWithFallback ['K', 'O']
      { tiingo := .ok (exResult exMetricsDY0)
        yahoo := .ok (exResult exMetricsDY03) }).supplementAttempted = true := by
  have h := supplement_attempted_iff ['K', 'O']
    { tiingo := .ok (exResult exMetricsDY0), yahoo := .ok (exResult exMetricsDY03) }
    (exResult exMetricsDY0) (by decide) rfl rfl
  exact h.1.mpr (Or.inr (Or.inr (Or.inl rfl)))

/-- C3.  With a non-blank symbol, the orchestrator's result is an error
exactly when both provider attempts fail; in that case it is an
AggregateError carrying both underlying errors; and a failure of the
scraped supplement after a successful commercial fetch is swallowed, the
commercial result being returned. -/
theorem fallback_error_iff_both_fail (symbol : List Char) (o : ProviderOutcomes)
    (hsym : toUpperChars (trimChars symbol) ≠ []) :
    ((∃ e, (fetchFundamentalsWithFallback symbol o).result = .error e) ↔
      ((∃ te, o.tiingo = .error te) ∧ (∃ ye, o.yahoo = .error ye))) ∧
    (∀ te ye, o.tiingo = .error te → o.yahoo = .error ye →
      ∃ msg, (fetchFundamentalsWithFallback symbol o).result =
        .error (.aggregateErr [.simple te, .simple ye] msg)) ∧
    (∀ t ye, o.tiingo = .ok t → o.yahoo = .error ye →
      (fetchFundamentalsWithFallback symbol o).result = .ok t) := by
  refine ⟨?_, ?_, ?_⟩
  · constructor
    · intro ⟨e, he⟩
      cases ht : o.tiingo with
      | ok t =>
          rw [fallback_shape_tiingo_ok symbol o t hsym ht] at he
          by_cases hn : needsSupplement t = true
          · rw [if_pos hn] at he
            cases hy : o.yahoo <;> rw [hy] at he <;> simp at he
          · rw [if_neg hn] at he
            simp at he
      | error te =>
          rw [fallback_shape_tiingo_error symbol o te hsym ht] at he
          cases hy : o.yahoo with
          | ok y => rw [hy] at he; simp at he
          | error ye => exact ⟨⟨te, rfl⟩, ⟨ye, rfl⟩⟩
    · intro ⟨⟨te, ht⟩, ⟨ye, hy⟩⟩
      rw [fallback_shape_tiingo_error symbol o te hsym ht, hy]
      exact ⟨_, rfl⟩
  · intro te ye ht hy
    rw [fallback_shape_tiingo_error symbol o te hsym ht, hy]
    exact ⟨_, rfl⟩
  · intro t ye ht hy
    rw [fallback_shape_tiingo_ok symbol o t hsym ht]
    by_cases hn : needsSupplement t = true
    · rw [if_pos hn, hy]
    · rw [if_neg hn]

/-- Witness for C3: both providers fail, the caller receives the
AggregateError carrying both errors; and with a successful commercial fetch
and a failing supplement, the commercial result is returned. -/
theorem fallback_error_iff_both_fail_witness :
    (∃ msg, (fetchFundamentalsWithFallback ['A']
        { tiingo := .error "tiingo down", yahoo := .error "yahoo down" }).result =
      .error (.aggregateErr [.simple "tiingo down", .simple "yahoo down"] msg)) ∧
    (fetchFundamentalsWithFallback ['A']
        { tiingo := .ok (exResult exMetricsDY0), yahoo := .error "yahoo down" }).result
      = .ok (exResult exMetricsDY0) := by
  constructor
  · exact (fallback_error_iff_both_fail ['A']
      { tiingo := .error "tiingo down", yahoo := .error "yahoo down" }
      (by decide)).2.1 "tiingo down" "yahoo down" rfl rfl
  · exact (fallback_error_iff_both_fail ['A']
      { tiingo := .ok (exResult exMetricsDY0), yahoo := .error "yahoo down" }
      (by decide)).2.2 (exResult exMetricsDY0) "yahoo down" rfl rfl

/-! ## C4: invalid-session classification and retry-once -/

theorem matches_nil_false : matchesInvalidSessionText [] = false := by decide

theorem shouldRetry_iff (status : ℕ) (body : BodyParse) :
    shouldRetryWithNewSession status body = true ↔
      (status = 401 ∨ status = 403 ∨
        ∃ desc, body = .parsed desc ∧
          matchesInvalidSessionText (desc.getD []) = true) := by
  unfold shouldRetryWithNewSession
  by_cases h41 : status = 401
  · simp [h41]
  · by_cases h43 : status = 403
    · simp [h43]
    · cases body with
      | unparseable => simp [h41, h43]
      | parsed desc => simp [h41, h43]

theorem perform_invalid_iff (resp : QuoteSummaryResponse) :
    (∃ m, performQuoteSummaryRequest resp = .invalidSession m) ↔
      (resp.status = 401 ∨ resp.status = 403 ∨
        ∃ desc, resp.body = .parsed desc ∧
          matchesInvalidSessionText (desc.getD []) = true) := by
  unfold performQuoteSummaryRequest
  by_cases hok : responseOk resp.status = true
  · have h401 : resp.status ≠ 401 := by
      intro h; rw [h] at hok; exact absurd hok (by decide)
    have h403 : resp.status ≠ 403 := by
      intro h; rw [h] at hok; exact absurd hok (by decide)
    rw [if_neg (by simp [hok])]
    cases hb : resp.body with
    | unparseable =>
        constructor
        · intro ⟨m, hm⟩; exact QSOutcome.noConfusion hm
        · rintro (h | h | ⟨desc2, hdesc2, -⟩)
          · exact absurd h h401
          · exact absurd h h403
          · exact BodyParse.noConfusion hdesc2
    | parsed desc =>
        dsimp only
        by_cases hcond : (!(desc.getD []).isEmpty &&
            matchesInvalidSessionText (desc.getD [])) = true
        · rw [if_pos hcond]
          have hm : matchesInvalidSessionText (desc.getD []) = true := by
            rw [Bool.and_eq_true] at hcond; exact hcond.2
          exact ⟨fun _ => Or.inr (Or.inr ⟨desc, rfl, hm⟩), fun _ => ⟨_, rfl⟩⟩
        · rw [if_neg hcond]
          constructor
          · intro ⟨m, hm⟩
            cases hp : resp.parsedResult <;> rw [hp] at hm <;>
              exact QSOutcome.noConfusion hm
          · rintro (h | h | ⟨desc2, hdesc2, hmatch⟩)
            · exact absurd h h401
            · exact absurd h h403
            · exfalso
              have hde : desc2 = desc := by
                injection hdesc2 with h2; exact h2.symm
              subst hde
              by_cases hemp : (desc2.getD []).isEmpty = true
              · have hnil : desc2.getD [] = [] := by
                  cases desc2 with
                  | none => rfl
                  | some l =>
                      cases l with
                      | nil => rfl
                      | cons a as => simp [List.isEmpty] at hemp
                rw [hnil] at hmatch
                exact absurd hmatch (by decide)
              · apply hcond
                rw [Bool.and_eq_true]
                exact ⟨by simp [hemp], hmatch⟩
  · have hok2 : responseOk resp.status = false := by
      cases h : responseOk resp.status
      · rfl
      · exact absurd h hok
    rw [if_pos (by simp [hok2])]
    by_cases hs : shouldRetryWithNewSession resp.status resp.body = true
    · rw [if_pos hs]
      exact ⟨fun _ => (shouldRetry_iff _ _).mp hs, fun _ => ⟨_, rfl⟩⟩
    · rw [if_neg hs]
      constructor
      · intro ⟨m, hmm⟩; exact QSOutcome.noConfusion hmm
      · intro hr; exact absurd ((shouldRetry_iff _ _).mpr hr) hs

/-- C4.  A quote-summary request fails with the invalid-session
classification exactly when the HTTP status is 401 or 403, or the body is
parseable JSON whose error description matches invalid crumb / invalid
cookie case-insensitively; on such a failure of a non-forced fetch, the
session is invalidated and the fetch is retried exactly once with a forced
session refresh (two upstream requests in total, never a third), the retry's
success being returned and a second invalid-session failure propagating as
an InvalidYahooSessionError; an invalid-session failure of an
already-forced fetch propagates without any retry. -/
theorem invalid_session_retry_once (resp1 resp2 : QuoteSummaryResponse) :
    ((∃ m, performQuoteSummaryRequest resp1 = .invalidSession m) ↔
      (resp1.status = 401 ∨ resp1.status = 403 ∨
        ∃ desc, resp1.body = .parsed desc ∧
          matchesInvalidSessionText (desc.getD []) = true)) ∧
    (∀ m, performQuoteSummaryRequest resp1 = .invalidSession m →
      ((fetchYahooFundamentals false resp1 resp2).invalidations = 1 ∧
        (fetchYahooFundamentals false resp1 resp2).forcedSessionRefreshes = 1 ∧
        (fetchYahooFundamentals false resp1 resp2).requests = 2 ∧
        (∀ r, performQuoteSummaryRequest resp2 = .ok r →
          (fetchYahooFundamentals false resp1 resp2).result = .ok r) ∧
        (∀ m2, performQuoteSummaryRequest resp2 = .invalidSession m2 →
          (fetchYahooFundamentals false resp1 resp2).result =
            .error (.invalidSessionErr m2))) ∧
      ((fetchYahooFundamentals true resp1 resp2).requests = 1 ∧
        (fetchYahooFundamentals true resp1 resp2).result =
          .error (.invalidSessionErr m))) := by
  refine ⟨perform_invalid_iff resp1, ?_⟩
  intro m hm
  refine ⟨?_, ?_⟩
  · simp only [fetchYahooFundamentals, hm, Bool.false_eq_true, if_false]
    cases hr : performQuoteSummaryRequest resp2 with
    | ok r =>
        refine ⟨rfl, rfl, rfl, fun r2 h2 => ?_, fun m2 h2 => QSOutcome.noConfusion h2⟩
        injection h2 with h3
        subst h3
        rfl
    | invalidSession m2 =>
        refine ⟨rfl, rfl, rfl, fun r2 h2 => QSOutcome.noConfusion h2, fun m3 h3 => ?_⟩
        injection h3 with h4
        subst h4
        rfl
    | otherFailure e2 =>
        exact ⟨rfl, rfl, rfl, fun r2 h2 => QSOutcome.noConfusion h2,
          fun m3 h3 => QSOutcome.noConfusion h3⟩
  · simp only [fetchYahooFundamentals, hm]
    exact ⟨rfl, rfl⟩

/-- An upstream response with status 401 (classified as invalid session). -/
def exResp401 : QuoteSummaryResponse :=
  { status := 401, body := .unparseable, parsedResult := .error "unreachable" }

/-- A successful upstream response. -/
def exRespOk : QuoteSummaryResponse :=
  { status := 200, body := .parsed none, parsedResult := .ok (exResult exMetricsDY0) }

/-- Witness for C4: a 401 on the first attempt and a success on the retry
returns the retry's result with two upstream requests, one invalidation and
one forced refresh; a 401 on both attempts raises the invalid-session error
after exactly two requests. -/
theorem invalid_session_retry_once_witness :
    ((fetchYahooFundamentals false exResp401 exRespOk).requests = 2 ∧
      (fetchYahooFundamentals false exResp401 exRespOk).invalidations = 1 ∧
      (fetchYahooFundamentals false exResp401 exRespOk).forcedSessionRefreshes = 1 ∧
      (fetchYahooFundamentals false exResp401 exRespOk).result =
        .ok (exResult exMetricsDY0)) ∧
    ((fetchYahooFundamentals false exResp401 exResp401).requests = 2 ∧
      ∃ m2, (fetchYahooFundamentals false exResp401 exResp401).result =
        .error (.invalidSessionErr m2)) := by
  have h1 := (invalid_session_retry_once exResp401 exRespOk).2 _ rfl
  have h2 := (invalid_session_retry_once exResp401 exResp401).2 _ rfl
  refine ⟨⟨h1.1.2.2.1, h1.1.1, h1.1.2.1, h1.1.2.2.2.1 _ rfl⟩,
    h2.1.2.2.1, ⟨_, h2.1.2.2.2.2 _ rfl⟩⟩

/-! ## C5: symbol handling -/

theorem char_toNat_ofNat (n : ℕ) (h : n.isValidChar) :
    (Char.ofNat n).toNat = n := by
  rw [Char.ofNat, dif_pos h]
  rfl

theorem toUpper_of_lower (c : Char) (hc : c.toNat ≥ 97 ∧ c.toNat ≤ 122) :
    Char.toUpper c = Char.ofNat (c.toNat - 32) := by
  simp only [Char.toUpper]
  rw [if_pos hc]

theorem toUpper_of_not_lower (c : Char) (hc : ¬(c.toNat ≥ 97 ∧ c.toNat ≤ 122)) :
    Char.toUpper c = c := by
  simp only [Char.toUpper]
  rw [if_neg hc]

theorem toUpper_eq_dot_iff (c : Char) : Char.toUpper c = '.' ↔ c = '.' := by
  constructor
  · intro h
    by_cases hc : c.toNat ≥ 97 ∧ c.toNat ≤ 122
    · exfalso
      rw [toUpper_of_lower c hc] at h
      have hv : (c.toNat - 32).isValidChar := Or.inl (by omega)
      have h2 := congrArg Char.toNat h
      rw [char_toNat_ofNat _ hv] at h2
      have h46 : ('.' : Char).toNat = 46 := by decide
      rw [h46] at h2
      omega
    · rw [toUpper_of_not_lower c hc] at h
      exact h
  · intro h
    subst h
    decide

theorem toUpper_toUpper (c : Char) :
    Char.toUpper (Char.toUpper c) = Char.toUpper c := by
  by_cases hc : c.toNat ≥ 97 ∧ c.toNat ≤ 122
  · rw [toUpper_of_lower c hc]
    have ht : (Char.ofNat (c.toNat - 32)).toNat = c.toNat - 32 :=
      char_toNat_ofNat _ (Or.inl (by omega))
    apply toUpper_of_not_lower
    rw [ht]
    omega
  · rw [toUpper_of_not_lower c hc, toUpper_of_not_lower c hc]

/-- C5 (amended).  The outbound request path carries the symbol with every
literal dot replaced by a hyphen (so no dot survives in the path); the
returned symbol field is uppercase (applying toUpperCase again changes
nothing); and when the payload supplies no symbol of its own, the returned
symbol is the uppercased requested symbol, in which every dot of the input
sits exactly where it did (a payload-supplied symbol, by contrast, is
returned as Yahoo spells it, which need not preserve the input's dots). -/
theorem symbol_request_and_return (symbol : List Char)
    (priceSymbol : Option (List Char)) :
    ('.' ∉ requestPathSymbol symbol) ∧
    (∀ i : ℕ, (requestPathSymbol symbol).get? i =
      (symbol.get? i).map (fun c => if c = '.' then '-' else c)) ∧
    (toUpperChars (parsedSymbolField priceSymbol symbol) =
      parsedSymbolField priceSymbol symbol) ∧
    (priceSymbol = none →
      ∀ i : ℕ, ((parsedSymbolField priceSymbol symbol).get? i = some '.' ↔
        symbol.get? i = some '.')) := by
  refine ⟨?_, ?_, ?_, ?_⟩
  · intro hmem
    rcases List.mem_map.mp hmem with ⟨c, _, heq⟩
    by_cases h : c = '.'
    · rw [if_pos h] at heq
      exact absurd heq (by decide)
    · rw [if_neg h] at heq
      exact h heq
  · intro i
    unfold requestPathSymbol
    rw [List.get?_map]
  · cases priceSymbol with
    | none =>
        show toUpperChars (toUpperChars symbol) = toUpperChars symbol
        unfold toUpperChars
        rw [List.map_map]
        apply List.map_congr_left
        intro c _
        exact toUpper_toUpper c
    | some s =>
        show toUpperChars (toUpperChars s) = toUpperChars s
        unfold toUpperChars
        rw [List.map_map]
        apply List.map_congr_left
        intro c _
        exact toUpper_toUpper c
  · intro hnone i
    subst hnone
    show (toUpperChars symbol).get? i = some '.' ↔ symbol.get? i = some '.'
    unfold toUpperChars
    rw [List.get?_map]
    cases h : symbol.get? i with
    | none => simp
    | some c => simp [toUpper_eq_dot_iff]

/-- Witness for C5: for the dotted input brk.b with no payload symbol, the
request path carries no dot while the returned symbol keeps the dot at its
position. -/
theorem symbol_request_and_return_witness :
    ('.' ∉ requestPathSymbol ['b', 'r', 'k', '.', 'b']) ∧
    ((parsedSymbolField none ['b', 'r', 'k', '.', 'b']).get? 3 = some '.' ↔
      ['b', 'r', 'k', '.', 'b'].get? 3 = some '.') := by
  refine ⟨(symbol_request_and_return ['b', 'r', 'k', '.', 'b'] none).1, ?_⟩
  exact (symbol_request_and_return ['b', 'r', 'k', '.', 'b'] none).2.2.2 rfl 3

/-- Counterexample to C5 as stated: with input BRK.B, when the payload
itself carries the symbol BRK-B (as the provider spells class shares), the
returned symbol field is BRK-B: it does not preserve the dot of the
original input. -/
theorem returned_symbol_dot_counterexample :
    parsedSymbolField (some ['B', 'R', 'K', '-', 'B']) ['B', 'R', 'K', '.', 'B'] =
      ['B', 'R', 'K', '-', 'B'] ∧
    '.' ∈ ['B', 'R', 'K', '.', 'B'] ∧
    '.' ∉ parsedSymbolField (some ['B', 'R', 'K', '-', 'B'])
      ['B', 'R', 'K', '.', 'B'] := by
  refine ⟨by decide, by decide, by decide⟩

/-! ## C6: compound annual growth rates -/

theorem yearSeconds_pos : (0 : ℚ) < yearSeconds := by norm_num [yearSeconds]

/-- Flooring the second span at one second and then flooring the year
count at one year is the same as flooring the year count alone, for a
non-negative span. -/
theorem max_one_span_div (Δ : ℚ) (_hΔ : 0 ≤ Δ) :
    max 1 (max 1 Δ / yearSeconds) = max 1 (Δ / yearSeconds) := by
  rcases le_or_lt Δ 1 with h1 | h1
  · rw [max_eq_left h1]
    have hY : (1 : ℚ) ≤ yearSeconds := by norm_num [yearSeconds]
    have hA : (1 : ℚ) / yearSeconds ≤ 1 := by
      rw [div_le_one yearSeconds_pos]; exact hY
    have hB : Δ / yearSeconds ≤ 1 := by
      rw [div_le_one yearSeconds_pos]
      exact le_trans h1 hY
    rw [max_eq_left hA, max_eq_left hB]
  · rw [max_eq_right h1.le]

theorem cagrYears_cast (latest older : StatementEntry)
    (hord : older.endDate ≤ latest.endDate) :
    max 1 ((cagrYears latest older : ℚ) : ℝ) =
      max 1 (((latest.endDate - older.endDate : ℚ) : ℝ) /
        (365 * 24 * 60 * 60)) := by
  have hΔ : (0 : ℚ) ≤ latest.endDate - older.endDate := by linarith
  have hq : max 1 (cagrYears latest older) =
      max 1 ((latest.endDate - older.endDate) / yearSeconds) := by
    unfold cagrYears
    exact max_one_span_div _ hΔ
  have hcast := congrArg (fun q : ℚ => (q : ℝ)) hq
  simp only [Rat.cast_max, Rat.cast_one, Rat.cast_div] at hcast
  rw [hcast]
  norm_num [yearSeconds]

/-- C6.  With at least two dated entries in the extracted descending-sorted
income history, the revenue CAGR is (latest/older)^(1/years) - 1, the older
entry being the one at index min(length-1, 3), years being the end-date
span in seconds divided by 365*24*3600 and floored at one year; it is
undefined whenever either endpoint revenue is missing or not strictly
positive; and the earnings CAGR applies the same formula to the absolute
values of net income, undefined whenever either absolute endpoint is
missing or zero. -/
theorem statement_cagr_formula (h : List StatementEntry)
    (latest older : StatementEntry)
    (hlen : 2 ≤ h.length)
    (hlatest : h.get? 0 = some latest)
    (holder : h.get? (min (h.length - 1) 3) = some older)
    (hord : older.endDate ≤ latest.endDate) :
    (∀ l o : ℚ, latest.totalRevenue = some l → older.totalRevenue = some o →
      0 < l → 0 < o →
      revenueCagrOf h = some (Real.rpow ((l : ℝ) / (o : ℝ))
        (1 / max 1 (((latest.endDate - older.endDate : ℚ) : ℝ) /
          (365 * 24 * 60 * 60))) - 1)) ∧
    (∀ l o : ℚ, latest.totalRevenue = some l → older.totalRevenue = some o →
      (l ≤ 0 ∨ o ≤ 0) → revenueCagrOf h = none) ∧
    ((latest.totalRevenue = none ∨ older.totalRevenue = none) →
      revenueCagrOf h = none) ∧
    (∀ l o : ℚ, latest.netIncome = some l → older.netIncome = some o →
      |l| ≠ 0 → |o| ≠ 0 →
      earningsCagrOf h = some (Real.rpow ((|l| : ℝ) / (|o| : ℝ))
        (1 / max 1 (((latest.endDate - older.endDate : ℚ) : ℝ) /
          (365 * 24 * 60 * 60))) - 1)) ∧
    (∀ l o : ℚ, latest.netIncome = some l → older.netIncome = some o →
      (|l| ≤ 0 ∨ |o| ≤ 0) → earningsCagrOf h = none) ∧
    ((latest.netIncome = none ∨ older.netIncome = none) →
      earningsCagrOf h = none) := by
  have hhead : h.head? = some latest := by
    rw [← List.get?_zero]; exact hlatest
  have hsel : selectOlderEntry h 3 = some older := by
    unfold selectOlderEntry
    rw [if_neg (by omega)]
    exact holder
  have hyears := cagrYears_cast latest older hord
  refine ⟨?_, ?_, ?_, ?_, ?_, ?_⟩
  · intro l o hl ho hlpos hopos
    unfold revenueCagrOf
    rw [hhead, hsel]
    dsimp only
    unfold cagr
    rw [hl, ho]
    dsimp only
    rw [if_neg (by push_neg; exact ⟨hlpos, hopos⟩)]
    rw [hyears]
  · intro l o hl ho hle
    unfold revenueCagrOf
    rw [hhead, hsel]
    dsimp only
    unfold cagr
    rw [hl, ho]
    dsimp only
    rw [if_pos hle]
  · intro hnone
    unfold revenueCagrOf
    rw [hhead, hsel]
    dsimp only
    unfold cagr
    rcases hnone with hn | hn
    · rw [hn]
    · rw [hn]; cases latest.totalRevenue <;> rfl
  · intro l o hl ho hlne hone
    unfold earningsCagrOf
    rw [hhead, hsel]
    dsimp only
    unfold cagr
    rw [hl, ho]
    dsimp only [Option.map]
    rw [if_neg (by
      push_neg
      constructor
      · rcases lt_or_eq_of_le (abs_nonneg l) with hlt | heq
        · exact hlt
        · exact absurd heq.symm hlne
      · rcases lt_or_eq_of_le (abs_nonneg o) with hlt | heq
        · exact hlt
        · exact absurd heq.symm hone)]
    rw [hyears, Rat.cast_abs, Rat.cast_abs]
  · intro l o hl ho hle
    unfold earningsCagrOf
    rw [hhead, hsel]
    dsimp only
    unfold cagr
    rw [hl, ho]
    dsimp only [Option.map]
    rw [if_pos hle]
  · intro hnone
    unfold earningsCagrOf
    rw [hhead, hsel]
    dsimp only
    unfold cagr
    rcases hnone with hn | hn
    · rw [hn]; cases older.netIncome <;> rfl
    · rw [hn]; cases latest.netIncome <;> rfl

/-- Two raw income periods exactly one year (31536000 seconds) apart with
revenues 121 (latest) and 100 (older). -/
def exIncomeRaw : List RawStatementEntry :=
  [ { endDate := some 31536000, periodLabel := some "2024-12"
      totalRevenue := some 121, netIncome := some 121 },
    { endDate := some 0, periodLabel := some "2023-12"
      totalRevenue := some 100, netIncome := some 100 } ]

/-- The same two periods with an older revenue of exactly 0. -/
def exIncomeZeroOlder : List RawStatementEntry :=
  [ { endDate := some 31536000, periodLabel := some "2024-12"
      totalRevenue := some 121, netIncome := some 121 },
    { endDate := some 0, periodLabel := some "2023-12"
      totalRevenue := some 0, netIncome := some 0 } ]

def exLatestEntry : StatementEntry :=
  { endDate := 31536000, periodLabel := some "2024-12"
    totalRevenue := some 121, netIncome := some 121 }

def exOlderEntry : StatementEntry :=
  { endDate := 0, periodLabel := some "2023-12"
    totalRevenue := some 100, netIncome := some 100 }

def exOlderEntryZero : StatementEntry :=
  { endDate := 0, periodLabel := some "2023-12"
    totalRevenue := some 0, netIncome := some 0 }

/-- Witness for C6: two periods exactly one year apart with revenues 100
and 121 give a revenue CAGR of exactly 0.21, and an older revenue of 0
gives an undefined CAGR. -/
theorem statement_cagr_formula_witness :
    revenueCagrOf (extractStatementEntries exIncomeRaw) = some (21 / 100 : ℝ) ∧
    revenueCagrOf (extractStatementEntries exIncomeZeroOlder) = none := by
  constructor
  · have h := (statement_cagr_formula (extractStatementEntries exIncomeRaw)
      exLatestEntry exOlderEntry (by decide) (by decide) (by decide)
      (by decide)).1 121 100 rfl rfl (by norm_num) (by norm_num)
    rw [h]
    have hexp : (1 : ℝ) / max 1
        (((exLatestEntry.endDate - exOlderEntry.endDate : ℚ) : ℝ) /
          (365 * 24 * 60 * 60)) = 1 := by
      norm_num [exLatestEntry, exOlderEntry]
    rw [hexp]
    rw [show Real.rpow (((121 : ℚ) : ℝ) / ((100 : ℚ) : ℝ)) 1 =
      ((121 : ℚ) : ℝ) / ((100 : ℚ) : ℝ) from Real.rpow_one _]
    simp only [Option.some.injEq]
    push_cast
    norm_num
  · exact (statement_cagr_formula (extractStatementEntries exIncomeZeroOlder)
      exLatestEntry exOlderEntryZero (by decide) (by decide) (by decide)
      (by decide)).2.1 121 0 rfl rfl (Or.inr le_rfl)

/-! ## C7: growth histories

The description of the amended claim, written as a direct recursion over
the newest-first window: for each entry of the window of the four most
recent periods, in window order (newest first), emit the growth against
the next older entry inside the window exactly when that base is present
and nonzero and the entry's own metric is present and usable (strictly
positive revenue; nonzero net income); every other period is skipped. -/

def specRevenuePoints (index : ℕ) : List StatementEntry → List (String × ℚ)
  | [] => []
  | entry :: rest =>
      match rest.head?, entry.totalRevenue with
      | some next, some er =>
          match next.totalRevenue with
          | some nr =>
              if 0 < er ∧ nr ≠ 0 then
                (entry.periodLabel.getD ("period-" ++ toString index), er / nr - 1)
                  :: specRevenuePoints (index + 1) rest
              else specRevenuePoints (index + 1) rest
          | none => specRevenuePoints (index + 1) rest
      | _, _ => specRevenuePoints (index + 1) rest

def specEarningsPoints (index : ℕ) : List StatementEntry → List (String × ℚ)
  | [] => []
  | entry :: rest =>
      match rest.head?, entry.netIncome with
      | some next, some ei =>
          match next.netIncome with
          | some ni =>
              if ei ≠ 0 ∧ ni ≠ 0 then
                (entry.periodLabel.getD ("period-" ++ toString index), ei / ni - 1)
                  :: specEarningsPoints (index + 1) rest
              else specEarningsPoints (index + 1) rest
          | none => specEarningsPoints (index + 1) rest
      | _, _ => specEarningsPoints (index + 1) rest

def specRevenueGrowthHistory (h : List StatementEntry) :
    Option (List (String × ℚ)) :=
  if 2 ≤ h.length then some (specRevenuePoints 0 (h.take 4)) else none

def specEarningsGrowthHistory (h : List StatementEntry) :
    Option (List (String × ℚ)) :=
  if 2 ≤ h.length then some (specEarningsPoints 0 (h.take 4)) else none

theorem keepFinite_revenue_eq_spec :
    ∀ (w : List StatementEntry) (i : ℕ),
      keepFiniteGrowth (revenueGrowthPoints i w) = specRevenuePoints i w := by
  intro w
  induction w with
  | nil => intro i; rfl
  | cons entry rest ih =>
      intro i
      unfold revenueGrowthPoints specRevenuePoints keepFiniteGrowth
      cases hnext : rest.head? with
      | none =>
          dsimp only
          simp only [List.filterMap_cons, Option.map_none']
          exact ih (i + 1)
      | some next =>
          dsimp only
          cases her : entry.totalRevenue with
          | none =>
              dsimp only
              cases hnr : next.totalRevenue <;> dsimp only <;>
                simp only [List.filterMap_cons, Option.map_none'] <;>
                exact ih (i + 1)
          | some er =>
              dsimp only
              cases hnr : next.totalRevenue with
              | none =>
                  dsimp only
                  simp only [List.filterMap_cons, Option.map_none']
                  exact ih (i + 1)
              | some nr =>
                  dsimp only
                  by_cases hc : 0 < er ∧ nr ≠ 0
                  · rw [if_neg (by
                      push_neg
                      exact ⟨hc.2, hc.1.ne', hc.1⟩), if_pos hc]
                    simp only [List.filterMap_cons, Option.map_some']
                    exact congrArg (List.cons _) (ih (i + 1))
                  · rw [if_pos (by
                      by_cases he : er ≤ 0
                      · exact Or.inr (Or.inr he)
                      · push_neg at hc he
                        exact Or.inl (hc he)), if_neg hc]
                    simp only [List.filterMap_cons, Option.map_none']
                    exact ih (i + 1)

theorem keepFinite_earnings_eq_spec :
    ∀ (w : List StatementEntry) (i : ℕ),
      keepFiniteGrowth (earningsGrowthPoints i w) = specEarningsPoints i w := by
  intro w
  induction w with
  | nil => intro i; rfl
  | cons entry rest ih =>
      intro i
      unfold earningsGrowthPoints specEarningsPoints keepFiniteGrowth
      cases hnext : rest.head? with
      | none =>
          dsimp only
          simp only [List.filterMap_cons, Option.map_none']
          exact ih (i + 1)
      | some next =>
          dsimp only
          cases hei : entry.netIncome with
          | none =>
              dsimp only
              cases hni : next.netIncome <;> dsimp only <;>
                simp only [List.filterMap_cons, Option.map_none'] <;>
                exact ih (i + 1)
          | some ei =>
              dsimp only
              cases hni : next.netIncome with
              | none =>
                  dsimp only
                  simp only [List.filterMap_cons, Option.map_none']
                  exact ih (i + 1)
              | some ni =>
                  dsimp only
                  by_cases hc : ei ≠ 0 ∧ ni ≠ 0
                  · rw [if_neg (by
                      push_neg
                      exact ⟨hc.2, hc.1⟩), if_pos hc]
                    simp only [List.filterMap_cons, Option.map_some']
                    exact congrArg (List.cons _) (ih (i + 1))
                  · rw [if_pos (by
                      by_cases he : ei = 0
                      · exact Or.inr he
                      · push_neg at hc
                        exact Or.inl (hc he)), if_neg hc]
                    simp only [List.filterMap_cons, Option.map_none']
                    exact ih (i + 1)

/-- C7 (amended).  The growth histories are undefined exactly when fewer
than two income periods exist; otherwise they are the per-period growths
over the window of the four most recent periods, in window order (newest
first, not oldest first), each computed against the next older period
inside the window, keeping exactly those periods whose comparison base is
present and nonzero and whose own metric is present and usable. -/
theorem growth_histories_window (h : List StatementEntry) :
    revenueGrowthHistoryOf h = specRevenueGrowthHistory h ∧
    earningsGrowthHistoryOf h = specEarningsGrowthHistory h ∧
    (revenueGrowthHistoryOf h = none ↔ h.length < 2) ∧
    (earningsGrowthHistoryOf h = none ↔ h.length < 2) := by
  refine ⟨?_, ?_, ?_, ?_⟩
  · unfold revenueGrowthHistoryOf specRevenueGrowthHistory
    by_cases hl : 2 ≤ h.length
    · rw [if_pos hl, if_pos hl, keepFinite_revenue_eq_spec]
    · rw [if_neg hl, if_neg hl]
  · unfold earningsGrowthHistoryOf specEarningsGrowthHistory
    by_cases hl : 2 ≤ h.length
    · rw [if_pos hl, if_pos hl, keepFinite_earnings_eq_spec]
    · rw [if_neg hl, if_neg hl]
  · unfold revenueGrowthHistoryOf
    by_cases hl : 2 ≤ h.length
    · rw [if_pos hl]
      constructor
      · intro hcontra; exact absurd hcontra (by simp)
      · intro hlt; omega
    · rw [if_neg hl]
      simp only [true_iff]
      omega
  · unfold earningsGrowthHistoryOf
    by_cases hl : 2 ≤ h.length
    · rw [if_pos hl]
      constructor
      · intro hcontra; exact absurd hcontra (by simp)
      · intro hlt; omega
    · rw [if_neg hl]
      simp only [true_iff]
      omega

/-- A three-period descending income history with all values present;
period labels name the fiscal years. -/
def exIncome3 : List StatementEntry :=
  [ { endDate := 2, periodLabel := some "2024-12"
      totalRevenue := some 121, netIncome := some 121 },
    { endDate := 1, periodLabel := some "2023-12"
      totalRevenue := some 110, netIncome := some 110 },
    { endDate := 0, periodLabel := some "2022-12"
      totalRevenue := some 100, netIncome := some 100 } ]

/-- Counterexample to C7 as stated: on a fully-populated three-period
history the returned revenue growth sequence lists the newest period
first, not oldest-first as the claim says. -/
theorem growth_history_order_counterexample :
    (revenueGrowthHistoryOf exIncome3).map (fun l => l.map Prod.fst) =
      some ["2024-12", "2023-12"] ∧
    (["2024-12", "2023-12"] : List String) ≠ ["2023-12", "2024-12"] := by
  constructor
  · rfl
  · decide

/-! ## C8: free-cash-flow payout ratio -/

/-- C8 (amended).  The free-cash-flow payout ratio equals the absolute
value of the latest dividends-paid figure divided by the latest free cash
flow exactly when the latest free cash flow is strictly positive and the
dividends-paid figure is present and nonzero; in every other case
(including a dividends-paid figure of exactly 0) it is undefined. -/
theorem fcf_payout_characterization (hist : List StatementEntry) :
    (∀ latest (f d : ℚ), hist.head? = some latest →
      latest.freeCashFlow = some f → latest.dividendsPaid = some d →
      0 < f → d ≠ 0 →
      freeCashflowPayoutRatioOf hist = some (|d| / f)) ∧
    (∀ latest (f d : ℚ), hist.head? = some latest →
      latest.freeCashFlow = some f → latest.dividendsPaid = some d →
      (f ≤ 0 ∨ d = 0) →
      freeCashflowPayoutRatioOf hist = none) ∧
    (∀ latest, hist.head? = some latest →
      (latest.freeCashFlow = none ∨ latest.dividendsPaid = none) →
      freeCashflowPayoutRatioOf hist = none) ∧
    (hist.head? = none → freeCashflowPayoutRatioOf hist = none) := by
  refine ⟨?_, ?_, ?_, ?_⟩
  · intro latest f d hh hf hd hfpos hdne
    unfold freeCashflowPayoutRatioOf
    rw [hh]
    dsimp only
    rw [hf, hd]
    dsimp only
    rw [if_pos ⟨hfpos.ne', hfpos, hdne⟩]
  · intro latest f d hh hf hd hbad
    unfold freeCashflowPayoutRatioOf
    rw [hh]
    dsimp only
    rw [hf, hd]
    dsimp only
    rw [if_neg (by
      rintro ⟨hne, hpos, hdne⟩
      rcases hbad with hb | hb
      · exact absurd hpos (not_lt.mpr hb)
      · exact hdne hb)]
  · intro latest hh hnone
    unfold freeCashflowPayoutRatioOf
    rw [hh]
    dsimp only
    rcases hnone with hn | hn
    · rw [hn]
    · rw [hn]; cases latest.freeCashFlow <;> rfl
  · intro hh
    unfold freeCashflowPayoutRatioOf
    rw [hh]

/-- The latest cash-flow entry has a positive free cash flow of 100 and a
dividends-paid figure of exactly 0. -/
def exCashflowZeroDividends : List StatementEntry :=
  [ { endDate := 0, periodLabel := some "2024-12"
      freeCashFlow := some 100, dividendsPaid := some 0 } ]

/-- Counterexample to C8 as stated: with free cash flow 100 and a present
dividends-paid figure of exactly 0, the claim demands the ratio 0/100 = 0,
but the code leaves the ratio undefined, because the dividends-paid figure
sits in a JS truthiness test that rejects 0. -/
theorem fcf_payout_zero_dividends_counterexample :
    freeCashflowPayoutRatioOf exCashflowZeroDividends = none ∧
    freeCashflowPayoutRatioOf exCashflowZeroDividends ≠
      some (|(0 : ℚ)| / 100) := by
  have h0 : freeCashflowPayoutRatioOf exCashflowZeroDividends = none := rfl
  refine ⟨h0, ?_⟩
  rw [h0]
  simp

/-- Witness for C8: free cash flow 150 with dividends paid -60 gives the
ratio 0.4; free cash flow 0 gives an undefined ratio. -/
theorem fcf_payout_characterization_witness :
    freeCashflowPayoutRatioOf
      [ { endDate := 0, periodLabel := some "2024-12"
          freeCashFlow := some 150, dividendsPaid := some (-60) } ] =
      some (2 / 5) ∧
    freeCashflowPayoutRatioOf
      [ { endDate := 0, periodLabel := some "2024-12"
          freeCashFlow := some 0, dividendsPaid := some (-60) } ] = none := by
  constructor
  · have h := (fcf_payout_characterization
      [ { endDate := 0, periodLabel := some "2024-12"
          freeCashFlow := some 150, dividendsPaid := some (-60) } ]).1
      _ 150 (-60) rfl rfl rfl (by norm_num) (by norm_num)
    rw [h]
    norm_num
  · exact (fcf_payout_characterization
      [ { endDate := 0, periodLabel := some "2024-12"
          freeCashFlow := some 0, dividendsPaid := some (-60) } ]).2.1
      _ 0 (-60) rfl rfl rfl (Or.inl le_rfl)

/-! ## C9: session TTL -/

/-- C9.  For an acquire call without forceRefresh at time now against a
well-formed cache holding a session s: strictly before s.createdAt + TTL
the cached session is returned unmodified with no upstream fetch; at or
after that instant a refresh is performed, and on upstream success the
freshly stamped session is returned — with a new token it differs from the
cached one — so a session is never served past its TTL without
re-acquisition; and every resulting cache state is well-formed again. -/
theorem session_ttl (st : SessionState) (s : YahooSession) (now : ℤ)
    (fresh : Except String (String × String))
    (hcache : st.cachedSession = some s)
    (hwf : st.WellFormed) :
    (now < s.createdAt + SESSION_TTL_MS →
      getYahooSession false st now fresh =
        { result := .ok s, state := st, fetched := false }) ∧
    (s.createdAt + SESSION_TTL_MS ≤ now →
      (getYahooSession false st now fresh).fetched = true ∧
      (∀ cookie crumb, fresh = .ok (cookie, crumb) →
        (getYahooSession false st now fresh).result =
          .ok { cookieHeader := cookie, crumb := crumb, createdAt := now } ∧
        (crumb ≠ s.crumb →
          (getYahooSession false st now fresh).result ≠ .ok s))) ∧
    (∀ fr : Bool, ((getYahooSession fr st now fresh).state).WellFormed) := by
  have hexp := hwf s hcache
  refine ⟨?_, ?_, ?_⟩
  · intro hlt
    unfold getYahooSession
    rw [hcache]
    dsimp only
    rw [if_pos ⟨by simp, by omega⟩]
  · intro hge
    have hcond : ¬(¬(false : Bool) = true ∧ now < st.cachedSessionExpiresAt) := by
      rintro ⟨-, hlt⟩
      omega
    constructor
    · unfold getYahooSession
      rw [hcache]
      dsimp only
      rw [if_neg hcond]
      cases fresh <;> rfl
    · intro cookie crumb hfr
      subst hfr
      unfold getYahooSession
      rw [hcache]
      dsimp only
      rw [if_neg hcond]
      refine ⟨rfl, fun hne hcontra => ?_⟩
      dsimp only at hcontra
      injection hcontra with h2
      rw [← h2] at hne
      exact hne rfl
  · intro fr
    unfold getYahooSession
    rw [hcache]
    dsimp only
    by_cases hcond : (¬fr = true ∧ now < st.cachedSessionExpiresAt)
    · rw [if_pos hcond]
      exact hwf
    · rw [if_neg hcond]
      cases fresh with
      | ok p =>
          cases p with
          | mk cookie crumb =>
              dsimp only
              intro s2 hs2
              injection hs2 with h2
              rw [← h2]
      | error e => exact hwf

def exSession0 : YahooSession :=
  { cookieHeader := "a=b", crumb := "crumbA", createdAt := 0 }

def exSessionState : SessionState :=
  { cachedSession := some exSession0, cachedSessionExpiresAt := 900000 }

/-- Witness for C9: a session created at time 0 is served unmodified at
time 1000, while at time 900000 (exactly the TTL) a refresh runs and the
caller receives the newly stamped session with the new token, not the old
one. -/
theorem session_ttl_witness :
    getYahooSession false exSessionState 1000 (.ok ("c=d", "crumbB")) =
      { result := .ok exSession0, state := exSessionState, fetched := false } ∧
    (getYahooSession false exSessionState 900000 (.ok ("c=d", "crumbB"))).fetched
      = true ∧
    (getYahooSession false exSessionState 900000 (.ok ("c=d", "crumbB"))).result =
      .ok { cookieHeader := "c=d", crumb := "crumbB", createdAt := 900000 } ∧
    (getYahooSession false exSessionState 900000 (.ok ("c=d", "crumbB"))).result ≠
      .ok exSession0 := by
  have hwf : exSessionState.WellFormed := by
    intro s2 hs2
    injection hs2 with h2
    subst h2
    decide
  have h1 := session_ttl exSessionState exSession0 1000 (.ok ("c=d", "crumbB"))
    rfl hwf
  have h2 := session_ttl exSessionState exSession0 900000 (.ok ("c=d", "crumbB"))
    rfl hwf
  have hlt : (1000 : ℤ) < exSession0.createdAt + SESSION_TTL_MS := by decide
  have hge : exSession0.createdAt + SESSION_TTL_MS ≤ (900000 : ℤ) := by decide
  have hb := h2.2.1 hge
  have hc := hb.2 "c=d" "crumbB" rfl
  exact ⟨h1.1 hlt, hb.1, hc.1, hc.2 (by decide)⟩

/-! ## C10: single-flight refresh -/

/-- The two interleavings in which both callers start (in either order)
before the refresh resolves. -/
def twoCallerSchedule (first : Bool) (t1 t2 t3 : ℤ)
    (outcome : Except String (String × String)) : List SchedEvent :=
  if first then [.startA t1, .startB t2, .resolve t3 outcome]
  else [.startB t1, .startA t2, .resolve t3 outcome]

/-- The single-flight bookkeeping invariant: when a refresh is in flight,
exactly one more fetch has started than has settled; otherwise the counts
agree. -/
def ConcState.Inv (st : ConcState) : Prop :=
  (st.inFlight = true → st.fetchesStarted = st.fetchesResolved + 1) ∧
  (st.inFlight = false → st.fetchesStarted = st.fetchesResolved)

theorem startPhase_shape (st : ConcState) (now : ℤ) :
    ((startPhase st now).2.1 = st.inFlight ∧
      (startPhase st now).2.2 = st.fetchesStarted) ∨
    (st.inFlight = false ∧ (startPhase st now).2.1 = true ∧
      (startPhase st now).2.2 = st.fetchesStarted + 1) := by
  unfold startPhase
  cases hc : st.cached with
  | some s =>
      dsimp only
      by_cases ht : now < st.cachedExpiresAt
      · rw [if_pos ht]
        exact Or.inl ⟨rfl, rfl⟩
      · rw [if_neg ht]
        cases hf : st.inFlight with
        | true => rw [if_pos rfl]; exact Or.inl ⟨rfl, rfl⟩
        | false => rw [if_neg (by simp)]; exact Or.inr ⟨rfl, rfl, rfl⟩
  | none =>
      dsimp only
      cases hf : st.inFlight with
      | true => rw [if_pos rfl]; exact Or.inl ⟨rfl, rfl⟩
      | false => rw [if_neg (by simp)]; exact Or.inr ⟨rfl, rfl, rfl⟩

theorem concStep_preserves_inv (st : ConcState) (e : SchedEvent)
    (hinv : st.Inv) : (concStep st e).Inv := by
  cases e with
  | startA now =>
      unfold concStep
      dsimp only
      by_cases ha : st.callerA = .idle
      · rw [if_pos ha]
        rcases startPhase_shape st now with ⟨h1, h2⟩ | ⟨h0, h1, h2⟩
        · refine ⟨fun hf => ?_, fun hf => ?_⟩
          · dsimp only at hf ⊢
            rw [h1] at hf
            rw [h2]
            exact hinv.1 hf
          · dsimp only at hf ⊢
            rw [h1] at hf
            rw [h2]
            exact hinv.2 hf
        · refine ⟨fun _ => ?_, fun hf => ?_⟩
          · dsimp only
            rw [h2, hinv.2 h0]
          · dsimp only at hf
            rw [h1] at hf
            exact Bool.noConfusion hf
      · rw [if_neg ha]; exact hinv
  | startB now =>
      unfold concStep
      dsimp only
      by_cases hb : st.callerB = .idle
      · rw [if_pos hb]
        rcases startPhase_shape st now with ⟨h1, h2⟩ | ⟨h0, h1, h2⟩
        · refine ⟨fun hf => ?_, fun hf => ?_⟩
          · dsimp only at hf ⊢
            rw [h1] at hf
            rw [h2]
            exact hinv.1 hf
          · dsimp only at hf ⊢
            rw [h1] at hf
            rw [h2]
            exact hinv.2 hf
        · refine ⟨fun _ => ?_, fun hf => ?_⟩
          · dsimp only
            rw [h2, hinv.2 h0]
          · dsimp only at hf
            rw [h1] at hf
            exact Bool.noConfusion hf
      · rw [if_neg hb]; exact hinv
  | resolve now outcome =>
      unfold concStep
      dsimp only
      cases hf : st.inFlight with
      | true =>
          rw [if_pos rfl]
          refine ⟨fun hcontra => Bool.noConfusion hcontra, fun _ => ?_⟩
          dsimp only
          exact hinv.1 hf
      | false =>
          rw [if_neg (by simp)]
          exact hinv

theorem concRun_inv (events : List SchedEvent) :
    ∀ st : ConcState, st.Inv → (concRun st events).Inv := by
  induction events with
  | nil => intro st h; exact h
  | cons e rest ih =>
      intro st h
      exact ih (concStep st e) (concStep_preserves_inv st e h)

/-- C10.  When two acquire calls both start (in either order) while no
valid session is cached and the refresh then resolves, exactly one
upstream refresh (one bootstrap round trip followed by one token round
trip) is started, and both callers receive the same session or the same
failure; and along every schedule of events at most one refresh is in
flight at any time, process-wide. -/
theorem single_flight (first : Bool) (t1 t2 t3 : ℤ)
    (outcome : Except String (String × String)) :
    ((concRun concInit (twoCallerSchedule first t1 t2 t3 outcome)).fetchesStarted
      = 1 ∧
    ∃ r, (concRun concInit (twoCallerSchedule first t1 t2 t3 outcome)).callerA =
        .gotSession r ∧
      (concRun concInit (twoCallerSchedule first t1 t2 t3 outcome)).callerB =
        .gotSession r) ∧
    (∀ events : List SchedEvent,
      (concRun concInit events).inFlightCount ≤ 1) := by
  constructor
  · cases first <;> cases outcome <;> exact ⟨rfl, _, rfl, rfl⟩
  · intro events
    have hinv : (concRun concInit events).Inv :=
      concRun_inv events concInit ⟨fun h => Bool.noConfusion h, fun _ => rfl⟩
    unfold ConcState.inFlightCount
    cases hf : (concRun concInit events).inFlight with
    | true => rw [hinv.1 hf]; omega
    | false => rw [hinv.2 hf]; omega

end OpenStock
